import Mathlib

/-!
Verification of the prayer-time tracking core of `script.js`.

The JavaScript source operates on "HH:MM" strings, JS objects used as
string-keyed maps, and JS numbers.  The embedding below mirrors it:

* JS string relational operators (`<`, `<=`, `>`) compare UTF-16 code units
  lexicographically; all strings involved are ASCII, so this coincides with
  lexicographic comparison of the character lists (`charListLtb`).
* JS objects holding per-day / per-prayer records become association lists
  (`aLookup` / `aInsert` / `aErase`); JS object keys are unique, insertion
  updates in place, `delete` removes the key.
* JS numbers are modelled as `Option Int`: `none` stands for `NaN`
  (`Number` of a malformed string), and arithmetic propagates `none`.
  `Math.floor(a / b)` on integers is `Int.fdiv`; the JS `%` operator is
  the truncated remainder `Int.tmod`.
* `Date` values are modelled as minutes on a linear timeline;
  `new Date(y, m, d)` becomes the civil-calendar day number `jsMakeDay`
  (days since 1970-01-01), with JS month/day rollover and the JS quirk of
  mapping years 0..99 to 1900..1999.
-/

namespace SalatTracker

/-! ### JS string comparison (code-unit lexicographic) -/

def charListLtb : List Char → List Char → Bool
  | [], [] => false
  | [], _ :: _ => true
  | _ :: _, [] => false
  | a :: as, b :: bs => if a < b then true else if b < a then false else charListLtb as bs

/-- JS `a < b` on strings. -/
def jsLtStr (a b : String) : Bool := charListLtb a.data b.data

/-- JS `a <= b` on strings (total order: `a <= b` iff not `b < a`). -/
def jsLeStr (a b : String) : Bool := !charListLtb b.data a.data

/-- JS `a > b` where `b` may be `undefined` (`none`); any relational
comparison against `undefined` is false. -/
def jsGtStr (a : String) : Option String → Bool
  | none => false
  | some b => charListLtb b.data a.data

/-! ### JS numeric conversion (`Number(...)`) and formatting (`String(...)`) -/

def digitVal? (c : Char) : Option Nat :=
  if '0' ≤ c ∧ c ≤ '9' then some (c.toNat - 48) else none

def parseDigits : List Char → Nat → Option Nat
  | [], acc => some acc
  | c :: cs, acc =>
    match digitVal? c with
    | some d => parseDigits cs (acc * 10 + d)
    | none => none

/-- JS `Number(s)` restricted to the integral strings the tracker produces:
`""` converts to `0`, an optional sign followed by decimal digits converts to
the signed value, and anything else is `NaN` (`none`). -/
def jsStringToNumber (s : String) : Option Int :=
  match s.data with
  | [] => some 0
  | '-' :: rest =>
    if rest.isEmpty then none else (parseDigits rest 0).map (fun n => -(n : Int))
  | '+' :: rest =>
    if rest.isEmpty then none else (parseDigits rest 0).map (fun n => (n : Int))
  | l => (parseDigits l 0).map (fun n => (n : Int))

def natToCharsCore : Nat → Nat → List Char → List Char
  | 0, _, acc => acc
  | fuel + 1, n, acc =>
    if n < 10 then Nat.digitChar n :: acc
    else natToCharsCore fuel (n / 10) (Nat.digitChar (n % 10) :: acc)

/-- JS `String(n)` for a non-negative integer: decimal digits. -/
def jsNatToString (n : Nat) : String := String.mk (natToCharsCore (n + 1) n [])

/-- JS `String(i)` for an integer. -/
def jsIntToString (i : Int) : String :=
  if i < 0 then "-" ++ jsNatToString i.natAbs else jsNatToString i.natAbs

/-- JS `String(x)` where `x` is a number or `NaN` (`none`). -/
def jsNumToString : Option Int → String
  | none => "NaN"
  | some i => jsIntToString i

/-- JS `s.padStart(2, '0')`. -/
def padStart2 (s : String) : String :=
  if s.length = 0 then "00" else if s.length = 1 then "0" ++ s else s

/-! ### JS `split(':')` -/

def splitOnCharAux (sep : Char) : List Char → List Char → List (List Char)
  | [], acc => [acc.reverse]
  | c :: cs, acc =>
    if c = sep then acc.reverse :: splitOnCharAux sep cs []
    else splitOnCharAux sep cs (c :: acc)

/-- JS `s.split(sep)` for a single-character separator. -/
def jsSplit (s : String) (sep : Char) : List String :=
  (splitOnCharAux sep s.data []).map String.mk

/-! ### NaN-propagating arithmetic -/

def optBin (f : Int → Int → Int) : Option Int → Option Int → Option Int
  | some a, some b => some (f a b)
  | _, _ => none

/-- `Math.floor(a / b)` for integer JS numbers. -/
def jsFloorDiv (a b : Int) : Int := Int.fdiv a b

/-- JS `a % b` (truncated remainder, sign of the dividend). -/
def jsRem (a b : Int) : Int := Int.tmod a b

/-! ### TimeMath (source: `isTimeInRange`, `addMinutes`, `subtractMinutes`) -/

/-- Source `isTimeInRange(current, start, end)`:
`current >= start && current <= end` on raw strings. -/
def isTimeInRange (current start0 end0 : String) : Bool :=
  jsLeStr start0 current && jsLeStr current end0

/-- The value `h * 60 + m + minutes` computed by `addMinutes`, where `h` and
`m` come from `time.split(':').map(Number)`; `none` is `NaN`. -/
def addMinutesTotal (time : String) (minutes : Int) : Option Int :=
  let parts := jsSplit time ':'
  let h := (parts.get? 0).bind jsStringToNumber
  let m := (parts.get? 1).bind jsStringToNumber
  optBin (· + ·) (optBin (fun a b => a * 60 + b) h m) (some minutes)

/-- Source `addMinutes(time, minutes)`. -/
def addMinutes (time : String) (minutes : Int) : String :=
  let totalMinutes := addMinutesTotal time minutes
  let newH := totalMinutes.map (fun t => jsRem (jsFloorDiv t 60) 24)
  let newM := totalMinutes.map (fun t => jsRem t 60)
  padStart2 (jsNumToString newH) ++ ":" ++ padStart2 (jsNumToString newM)

/-- Source `subtractMinutes(time, minutes)`. -/
def subtractMinutes (time : String) (minutes : Int) : String :=
  addMinutes time (-minutes)

/-! ### The prayer-time table (source: `prayerTimes` object)

The object is created with keys `Fajr, Sunrise, Dhuhr, Asr, Maghrib, Isha`
in that insertion order; on Fridays `prayerTimes.Jummah = prayerTimes.Dhuhr`
appends a seventh key `Jummah` at the end. -/

structure PrayerTimeTable where
  Fajr : String
  Sunrise : String
  Dhuhr : String
  Asr : String
  Maghrib : String
  Isha : String
  Jummah : Option String
deriving DecidableEq

/-- `Object.keys(prayerTimes)` in insertion order. -/
def tableKeys (t : PrayerTimeTable) : List String :=
  ["Fajr", "Sunrise", "Dhuhr", "Asr", "Maghrib", "Isha"] ++
    (match t.Jummah with | some _ => ["Jummah"] | none => [])

/-- `prayerTimes[key]` (`none` is JS `undefined`). -/
def tableGet (t : PrayerTimeTable) (key : String) : Option String :=
  if key = "Fajr" then some t.Fajr
  else if key = "Sunrise" then some t.Sunrise
  else if key = "Dhuhr" then some t.Dhuhr
  else if key = "Asr" then some t.Asr
  else if key = "Maghrib" then some t.Maghrib
  else if key = "Isha" then some t.Isha
  else if key = "Jummah" then t.Jummah
  else none

/-- Source `getEndTime(prayer)`.  `indexOf` yields `-1` when absent; the
result is `undefined` (`none`) only on lookups the source never performs. -/
def getEndTime (t : PrayerTimeTable) (prayer : String) : Option String :=
  let prayers := tableKeys t
  let lookupName := if prayer = "Jummah" then "Dhuhr" else prayer
  let index : Int := match prayers.findIdx? (· = lookupName) with
    | some i => (i : Int)
    | none => -1
  if prayer = "Fajr" then some t.Sunrise
  else if index < (prayers.length : Int) - 1 then
    match prayers.get? (index + 1).toNat with
    | some key => tableGet t key
    | none => none
  else some "23:59"

/-- Source `isInForbiddenTime(currentTime)`. -/
def isInForbiddenTime (t : PrayerTimeTable) (currentTime : String) : Bool :=
  let sunriseStart := addMinutes t.Fajr 90
  let sunriseEnd := t.Sunrise
  let zenith := subtractMinutes t.Dhuhr 10
  let zenithEnd := t.Dhuhr
  let sunset := subtractMinutes t.Maghrib 15
  let sunsetEnd := t.Maghrib
  isTimeInRange currentTime sunriseStart sunriseEnd ||
    isTimeInRange currentTime zenith zenithEnd ||
    isTimeInRange currentTime sunset sunsetEnd

/-- The fallback table from `useDefaultPrayerTimes` (non-Friday). -/
def defaultPrayerTimes : PrayerTimeTable :=
  ⟨"05:00", "06:15", "12:15", "15:45", "18:00", "19:30", none⟩

/-- The fallback table on a Friday: `prayerTimes.Jummah = prayerTimes.Dhuhr`
is assigned after creation, so `Jummah` is the last key. -/
def fridayPrayerTimes : PrayerTimeTable :=
  ⟨"05:00", "06:15", "12:15", "15:45", "18:00", "19:30", some "12:15"⟩

/-- C1: `addMinutes` wraps correctly across midnight for a positive delta,
but the negated round trip fails: JS truncated `%` leaves negative totals
negative, so `subtractMinutes("00:10", 20)` evaluates to the malformed
string `"-1:-10"` instead of `"23:50"`; the claimed inverse law
`subtractMinutes(addMinutes(t, d), d) = t` is violated at
`t = "23:50"`, `d = 20`. -/
theorem addMinutes_roundTrip_fails_at_midnight_wrap :
    addMinutes "23:50" 20 = "00:10" ∧
      subtractMinutes "00:10" 20 = "-1:-10" ∧
      subtractMinutes (addMinutes "23:50" 20) 20 ≠ "23:50" := by
  refine ⟨by decide, by decide, ?_⟩
  decide

/-- C2: on a Friday table the key `Jummah` is appended after `Isha`, so
`Isha` is no longer the last key and `getEndTime("Isha")` returns
`prayerTimes.Jummah` (= Dhuhr's time, here `"12:15"`) instead of the
documented sentinel `"23:59"`; the other lookups behave as specified. -/
theorem getEndTime_isha_broken_on_friday :
    getEndTime fridayPrayerTimes "Isha" = some "12:15" ∧
      getEndTime fridayPrayerTimes "Fajr" = some "06:15" ∧
      getEndTime fridayPrayerTimes "Jummah" = some "15:45" ∧
      getEndTime fridayPrayerTimes "Dhuhr" = some "15:45" ∧
      getEndTime defaultPrayerTimes "Isha" = some "23:59" := by
  decide

/-! ### Association lists standing in for JS objects

JS objects have unique string keys; assignment to an existing key updates it
in place, assignment to a new key appends it, and `delete` removes the key.
`aInsert` / `aErase` realise that on association lists (`aErase` removes
every pair with the key, which agrees with `delete` on the unique-key lists
that represent actual JS objects). -/

def aLookup {α : Type} : List (String × α) → String → Option α
  | [], _ => none
  | (k, v) :: rest, key => if k = key then some v else aLookup rest key

def aInsert {α : Type} : List (String × α) → String → α → List (String × α)
  | [], key, v => [(key, v)]
  | (k, w) :: rest, key, v =>
    if k = key then (k, v) :: rest else (k, w) :: aInsert rest key v

def aErase {α : Type} (l : List (String × α)) (key : String) : List (String × α) :=
  l.filter (fun b => b.1 ≠ key)

/-- Membership test on a bucket's key list (truthiness of `bucket[p]`). -/
def sHas : List String → String → Bool
  | [], _ => false
  | x :: rest, p => if x = p then true else sHas rest p

theorem aLookup_aInsert {α : Type} (l : List (String × α)) (k k' : String) (v : α) :
    aLookup (aInsert l k v) k' = if k = k' then some v else aLookup l k' := by
  induction l with
  | nil => simp [aInsert, aLookup]
  | cons hd tl ih =>
    obtain ⟨k0, v0⟩ := hd
    by_cases h0 : k0 = k
    · subst h0
      by_cases h : k0 = k' <;> simp [aInsert, aLookup, h]
    · by_cases h1 : k0 = k'
      · have h2 : ¬ k = k' := fun he => h0 (h1.trans he.symm)
        have h3 : ¬ k' = k := fun he => h2 he.symm
        simp [aInsert, aLookup, h0, h1, h2, h3]
      · simp [aInsert, aLookup, h0, h1, ih]

theorem aLookup_filterKey {α : Type} (l : List (String × α)) (g : String → Bool) (k : String) :
    aLookup (l.filter (fun b => g b.1)) k = if g k then aLookup l k else none := by
  induction l with
  | nil => by_cases h : g k <;> simp [aLookup, h]
  | cons hd tl ih =>
    obtain ⟨k0, v0⟩ := hd
    by_cases h0 : k0 = k
    · subst h0
      by_cases h : g k0 <;> simp [aLookup, List.filter_cons, h, ih]
    · by_cases h : g k0 <;> simp [aLookup, List.filter_cons, h, h0, ih]

theorem aLookup_aErase {α : Type} (l : List (String × α)) (k k' : String) :
    aLookup (aErase l k) k' = if k = k' then none else aLookup l k' := by
  have h := aLookup_filterKey l (fun x => decide (x ≠ k)) k'
  by_cases hk : k = k'
  · subst hk
    simpa [aErase] using h
  · have hk' : ¬ k' = k := fun he => hk he.symm
    simpa [aErase, hk, hk'] using h

theorem sHas_filter_ne (l : List String) (p p' : String) :
    sHas (l.filter (fun x => !decide (x = p))) p' = (!decide (p' = p) && sHas l p') := by
  induction l with
  | nil => simp [sHas]
  | cons hd tl ih =>
    by_cases h0 : hd = p
    · by_cases h : p' = p
      · subst h
        simp [List.filter_cons, sHas, h0, ih]
      · have h1 : ¬ hd = p' := fun he => h (he.symm.trans h0)
        have h2 : ¬ p = p' := fun he => h he.symm
        simp [List.filter_cons, sHas, h0, h, h1, h2, ih]
    · by_cases h : hd = p'
      · have h1 : ¬ p' = p := fun he => h0 (h.trans he)
        simp [List.filter_cons, sHas, h0, h, h1]
      · simp [List.filter_cons, sHas, h0, h, ih]

/-- When erasing key `p` empties a bucket, the bucket held only `p`. -/
theorem aLookup_of_aErase_empty {α : Type} (l : List (String × α)) (p p' : String)
    (hne : p' ≠ p) (hE : aErase l p = []) : aLookup l p' = none := by
  induction l with
  | nil => rfl
  | cons hd tl ih =>
    obtain ⟨k0, v0⟩ := hd
    by_cases h0 : k0 = p
    · subst h0
      simp only [aErase, List.filter_cons] at hE
      simp only [ne_eq, decide_not] at hE
      rw [if_neg (by simp)] at hE
      have h1 : aLookup tl p' = none := ih (by simpa [aErase] using hE)
      have h2 : ¬ k0 = p' := fun he => hne (he.symm)
      simp [aLookup, h2, h1]
    · exfalso
      simp [aErase, List.filter_cons, h0] at hE

/-! ### Tracker state (source globals `completedPrayers`, `missedPrayers`)

`completedPrayers[dayKey]` is an object whose keys are the prayers marked
`true` that day, modelled as the list of those keys.  `missedPrayers[dayKey]`
maps a prayer to the record `{date, time}` stored by the source; `time` is
`undefined` (`none`) only for prayers absent from the table. -/

structure MissedEntry where
  date : String
  time : Option String
deriving DecidableEq

structure TrackerState where
  completedPrayers : List (String × List String)
  missedPrayers : List (String × List (String × MissedEntry))
deriving DecidableEq

/-- Fresh state: both records start as empty objects. -/
def initState : TrackerState := ⟨[], []⟩

/-- Truthiness of `completedPrayers[k] && completedPrayers[k][p]`. -/
def completedHas (st : TrackerState) (k p : String) : Bool :=
  sHas ((aLookup st.completedPrayers k).getD []) p

/-- The missed bucket for day `k` (`{}` when absent). -/
def missedBucket (st : TrackerState) (k : String) : List (String × MissedEntry) :=
  (aLookup st.missedPrayers k).getD []

/-- Truthiness of `missedPrayers[k] && missedPrayers[k][p]`. -/
def missedHas (st : TrackerState) (k p : String) : Bool :=
  (aLookup (missedBucket st k) p).isSome

/-- The record `{date: todayKey, time: prayerTimes[prayer === 'Jummah' ? 'Dhuhr' : prayer]}`. -/
def missedEntryFor (t : PrayerTimeTable) (todayKey prayer : String) : MissedEntry :=
  ⟨todayKey, tableGet t (if prayer = "Jummah" then "Dhuhr" else prayer)⟩

/-- The canonical prayer list (source builds it from `today.getDay() === 5`). -/
def prayersList (isFriday : Bool) : List String :=
  if isFriday then ["Fajr", "Jummah", "Asr", "Maghrib", "Isha"]
  else ["Fajr", "Dhuhr", "Asr", "Maghrib", "Isha"]

/-- Source `togglePrayer(prayer)`, checkbox-checked branch: mark `prayer`
completed for `todayKey` and clear any missed entry (removing the day's
missed bucket when it becomes empty). -/
def togglePrayerOn (st : TrackerState) (todayKey prayer : String) : TrackerState :=
  let bucket := (aLookup st.completedPrayers todayKey).getD []
  let bucket' := if sHas bucket prayer then bucket else bucket ++ [prayer]
  let comp := aInsert st.completedPrayers todayKey bucket'
  let miss :=
    match aLookup st.missedPrayers todayKey with
    | none => st.missedPrayers
    | some mb =>
      match aLookup mb prayer with
      | none => st.missedPrayers
      | some _ =>
        let mb' := aErase mb prayer
        if mb'.isEmpty then aErase st.missedPrayers todayKey
        else aInsert st.missedPrayers todayKey mb'
  ⟨comp, miss⟩

/-- Source `togglePrayer(prayer)`, unchecked branch: delete the completion
mark (dropping the day's bucket when empty); then, when
`currentTime > getEndTime(prayer)`, record the prayer as missed. -/
def togglePrayerOff (t : PrayerTimeTable) (st : TrackerState)
    (todayKey prayer currentTime : String) : TrackerState :=
  let bucket := (aLookup st.completedPrayers todayKey).getD []
  let bucket' := bucket.filter (fun x => x ≠ prayer)
  let comp :=
    if bucket'.isEmpty then aErase st.completedPrayers todayKey
    else aInsert st.completedPrayers todayKey bucket'
  let miss :=
    if jsGtStr currentTime (getEndTime t prayer) then
      let mb := missedBucket st todayKey
      aInsert st.missedPrayers todayKey (aInsert mb prayer (missedEntryFor t todayKey prayer))
    else st.missedPrayers
  ⟨comp, miss⟩

/-- One iteration of the `prayers.forEach` loop in `checkForMissedPrayers`. -/
def checkMissedOne (t : PrayerTimeTable) (todayKey currentTime : String)
    (st : TrackerState) (prayer : String) : TrackerState :=
  if jsGtStr currentTime (getEndTime t prayer) then
    if completedHas st todayKey prayer then st
    else
      let mb := missedBucket st todayKey
      match aLookup mb prayer with
      | some _ => st
      | none =>
        ⟨st.completedPrayers,
          aInsert st.missedPrayers todayKey (aInsert mb prayer (missedEntryFor t todayKey prayer))⟩
  else st

/-- Source `checkForMissedPrayers()` at a fixed current time. -/
def checkForMissedPrayers (t : PrayerTimeTable) (st : TrackerState)
    (todayKey currentTime : String) (isFriday : Bool) : TrackerState :=
  (prayersList isFriday).foldl (checkMissedOne t todayKey currentTime) st

/-- Source `updateStats()`: `(completedCount, remainingCount)` as displayed. -/
def updateStats (st : TrackerState) (todayKey : String) (isFriday : Bool) : Int × Int :=
  let prayers := prayersList isFriday
  let completed : Nat :=
    match aLookup st.completedPrayers todayKey with
    | none => 0
    | some bucket => prayers.countP (fun p => sHas bucket p)
  ((completed : Int), 5 - (completed : Int))

/-! ### The daily retention sweep (source: `cleanOldData`) -/

/-- Day number of a civil date (days since 1970-01-01), months `1..12`. -/
def daysFromCivil (y m d : Int) : Int :=
  let yAdj := if m ≤ 2 then y - 1 else y
  let era := Int.fdiv yAdj 400
  let yoe := yAdj - era * 400
  let mp := Int.fmod (m + 9) 12
  let doy := Int.fdiv (153 * mp + 2) 5 + d - 1
  let doe := yoe * 365 + Int.fdiv yoe 4 - Int.fdiv yoe 100 + doy
  era * 146097 + doe - 719468

/-- `new Date(year, monthIndex, day)` as a civil day number, including the
JS rollover of out-of-range month and day values and the JS mapping of
years 0..99 to 1900..1999. -/
def jsMakeDay (year monthIdx day : Int) : Int :=
  let y0 := if 0 ≤ year ∧ year ≤ 99 then year + 1900 else year
  let y1 := y0 + Int.fdiv monthIdx 12
  let m1 := Int.fmod monthIdx 12 + 1
  daysFromCivil y1 m1 1 + (day - 1)

/-- The date a DayKey parses to in `cleanOldData`:
`const [day, month, year] = dateKey.split('-'); new Date(year, month - 1, day)`.
`none` is an invalid date (some component converted to `NaN`). -/
def parseDayKey (dateKey : String) : Option Int :=
  let parts := jsSplit dateKey '-'
  let day := (parts.get? 0).bind jsStringToNumber
  let month := (parts.get? 1).bind jsStringToNumber
  let year := (parts.get? 2).bind jsStringToNumber
  match year, month, day with
  | some y, some mo, some d => some (jsMakeDay y (mo - 1) d)
  | _, _, _ => none

/-- The test `date < thirtyDaysAgo` of `cleanOldData` on a minutes timeline:
the parsed date stands for its local midnight, `thirtyDaysAgo` is `now` minus
30 days (`setDate` keeps the time of day).  Comparisons against an invalid
date (`NaN`) are false, so unparsable buckets are never deleted. -/
def isOlderThan30Days (nowMinutes : Int) (dateKey : String) : Bool :=
  match parseDayKey dateKey with
  | some d => decide (d * 1440 < nowMinutes - 30 * 1440)
  | none => false

/-- Source `cleanOldData()`: drop every bucket whose key parses to a date
older than thirty days, from both records. -/
def cleanOldData (nowMinutes : Int) (st : TrackerState) : TrackerState :=
  ⟨st.completedPrayers.filter (fun b => !isOlderThan30Days nowMinutes b.1),
   st.missedPrayers.filter (fun b => !isOlderThan30Days nowMinutes b.1)⟩

/-! ### Characterisation lemmas for the state operations -/

@[simp] theorem aLookup_nil {α : Type} (k : String) : aLookup ([] : List (String × α)) k = none :=
  rfl

@[simp] theorem sHas_nil (p : String) : sHas [] p = false :=
  rfl

theorem sHas_append_singleton (l : List String) (p p' : String) :
    sHas (l ++ [p]) p' = (sHas l p' || decide (p' = p)) := by
  induction l with
  | nil =>
    by_cases h : p = p'
    · simp [sHas, h]
    · have h' : ¬ p' = p := fun he => h he.symm
      simp [sHas, h, h']
  | cons hd tl ih =>
    by_cases h : hd = p' <;> simp [sHas, h, ih]

theorem completedHas_togglePrayerOn (st : TrackerState) (k p k' p' : String) :
    completedHas (togglePrayerOn st k p) k' p' =
      (completedHas st k' p' || (decide (k' = k) && decide (p' = p))) := by
  unfold togglePrayerOn completedHas
  simp only [aLookup_aInsert]
  by_cases hk : k = k'
  · subst hk
    by_cases hs : sHas ((aLookup st.completedPrayers k).getD []) p
    · by_cases hp : p' = p <;> simp [hs, hp]
    · by_cases hp : p' = p <;> simp [hs, sHas_append_singleton, hp]
  · have hk' : ¬ k' = k := fun he => hk he.symm
    simp [hk, hk']

theorem missedHas_togglePrayerOn (st : TrackerState) (k p k' p' : String) :
    missedHas (togglePrayerOn st k p) k' p' =
      (missedHas st k' p' && !(decide (k' = k) && decide (p' = p))) := by
  unfold togglePrayerOn missedHas missedBucket
  by_cases hk : k' = k
  · subst hk
    cases hmb : aLookup st.missedPrayers k' with
    | none =>
      by_cases hp : p' = p <;> simp [hmb, aLookup, hp]
    | some mb =>
      cases hme : aLookup mb p with
      | none =>
        by_cases hp : p' = p <;> simp [hmb, hme, hp]
      | some e =>
        by_cases hmt : (aErase mb p).isEmpty
        · have hE : aErase mb p = [] := by simpa [List.isEmpty_iff] using hmt
          by_cases hp : p' = p
          · simp [hmb, hme, hmt, aLookup_aErase, hp]
          · have hnone : aLookup mb p' = none := aLookup_of_aErase_empty mb p p' hp hE
            simp [hmb, hme, hmt, aLookup_aErase, hp, hnone]
        · by_cases hp : p' = p
          · simp [hmb, hme, hmt, aLookup_aInsert, aLookup_aErase, hp]
          · have hp2 : ¬ p = p' := fun he => hp he.symm
            simp [hmb, hme, hmt, aLookup_aInsert, aLookup_aErase, hp, hp2]
  · have hk2 : ¬ k = k' := fun he => hk he.symm
    cases hmb : aLookup st.missedPrayers k with
    | none => simp [hk, hmb]
    | some mb =>
      cases hme : aLookup mb p with
      | none => simp [hk, hmb, hme]
      | some e =>
        by_cases hmt : (aErase mb p).isEmpty <;>
          simp [hk, hk2, hmb, hme, hmt, aLookup_aInsert, aLookup_aErase]

theorem completedHas_togglePrayerOff (t : PrayerTimeTable) (st : TrackerState)
    (k p c k' p' : String) :
    completedHas (togglePrayerOff t st k p c) k' p' =
      (completedHas st k' p' && !(decide (k' = k) && decide (p' = p))) := by
  unfold togglePrayerOff completedHas
  simp only [ne_eq, decide_not]
  by_cases hk : k' = k
  · subst hk
    by_cases hmt : (((aLookup st.completedPrayers k').getD []).filter
        (fun x => !decide (x = p))).isEmpty
    · have hE : ((aLookup st.completedPrayers k').getD []).filter
          (fun x => !decide (x = p)) = [] := by simpa [List.isEmpty_iff] using hmt
      have hsh := sHas_filter_ne ((aLookup st.completedPrayers k').getD []) p p'
      rw [hE] at hsh
      by_cases hp : p' = p
      · simp [hmt, aLookup_aErase, hp]
      · simp [hmt, aLookup_aErase, hp]
        simp [sHas, hp] at hsh
        simp [hsh]
    · by_cases hp : p' = p <;>
        simp [hmt, aLookup_aInsert, sHas_filter_ne, hp]
  · have hk2 : ¬ k = k' := fun he => hk he.symm
    by_cases hmt : (((aLookup st.completedPrayers k).getD []).filter
        (fun x => !decide (x = p))).isEmpty <;>
      simp [hmt, aLookup_aInsert, aLookup_aErase, hk, hk2]

theorem missedLookup_togglePrayerOff (t : PrayerTimeTable) (st : TrackerState)
    (k p c k' p' : String) :
    aLookup (missedBucket (togglePrayerOff t st k p c) k') p' =
      (if k' = k ∧ p' = p ∧ jsGtStr c (getEndTime t p) = true
       then some (missedEntryFor t k p)
       else aLookup (missedBucket st k') p') := by
  unfold togglePrayerOff missedBucket
  by_cases hg : jsGtStr c (getEndTime t p) = true
  · by_cases hk : k' = k
    · subst hk
      by_cases hp : p' = p
      · subst hp
        simp [hg, aLookup_aInsert, missedBucket]
      · have hp2 : ¬ p = p' := fun he => hp he.symm
        simp [hg, aLookup_aInsert, missedBucket, hp, hp2]
    · have hk2 : ¬ k = k' := fun he => hk he.symm
      simp [hg, aLookup_aInsert, hk, hk2]
  · simp only [Bool.not_eq_true] at hg
    simp [hg]

theorem missedHas_togglePrayerOff (t : PrayerTimeTable) (st : TrackerState)
    (k p c k' p' : String) :
    missedHas (togglePrayerOff t st k p c) k' p' =
      (missedHas st k' p' ||
        (decide (k' = k) && decide (p' = p) && jsGtStr c (getEndTime t p))) := by
  unfold missedHas
  rw [missedLookup_togglePrayerOff]
  by_cases hk : k' = k <;> by_cases hp : p' = p <;>
    by_cases hg : jsGtStr c (getEndTime t p) = true <;>
    simp_all

theorem completedPrayers_checkMissedOne (t : PrayerTimeTable) (k c : String)
    (st : TrackerState) (p : String) :
    (checkMissedOne t k c st p).completedPrayers = st.completedPrayers := by
  unfold checkMissedOne
  by_cases hg : jsGtStr c (getEndTime t p) = true
  · by_cases hc : completedHas st k p = true
    · simp [hg, hc]
    · cases hme : aLookup (missedBucket st k) p <;> simp [hg, hc, hme]
  · simp only [Bool.not_eq_true] at hg
    simp [hg]

theorem completedHas_checkMissedOne (t : PrayerTimeTable) (k c : String)
    (st : TrackerState) (p k' p' : String) :
    completedHas (checkMissedOne t k c st p) k' p' = completedHas st k' p' := by
  unfold completedHas
  rw [completedPrayers_checkMissedOne]

theorem missedHas_checkMissedOne (t : PrayerTimeTable) (k c : String)
    (st : TrackerState) (p k' p' : String) :
    missedHas (checkMissedOne t k c st p) k' p' =
      (missedHas st k' p' ||
        (decide (k' = k) && decide (p' = p) &&
          jsGtStr c (getEndTime t p) && !completedHas st k p)) := by
  unfold checkMissedOne
  by_cases hg : jsGtStr c (getEndTime t p) = true
  · by_cases hc : completedHas st k p = true
    · simp [hg, hc]
    · cases hme : aLookup (missedBucket st k) p with
      | some e =>
        have hm : missedHas st k p = true := by simp [missedHas, hme]
        simp only [hg, if_true, hc, if_false, hme]
        by_cases hk : k' = k <;> by_cases hp : p' = p <;> simp_all
      | none =>
        have hm : missedHas st k p = false := by simp [missedHas, hme]
        simp only [hg, if_true, hc, if_false, hme]
        by_cases hk : k' = k
        · subst hk
          by_cases hp : p' = p
          · subst hp
            simp [hg, hc, missedHas, missedBucket, aLookup_aInsert, hm]
          · have hp2 : ¬ p = p' := fun he => hp he.symm
            simp [hg, hc, missedHas, missedBucket, aLookup_aInsert, hp, hp2]
        · have hk2 : ¬ k = k' := fun he => hk he.symm
          simp [hg, hc, missedHas, missedBucket, aLookup_aInsert, hk, hk2]
  · simp only [Bool.not_eq_true] at hg
    simp [hg]

theorem foldl_checkMissedOne_completed (t : PrayerTimeTable) (k c : String)
    (ps : List String) (st : TrackerState) :
    (ps.foldl (checkMissedOne t k c) st).completedPrayers = st.completedPrayers := by
  induction ps generalizing st with
  | nil => rfl
  | cons q ps ih =>
    rw [List.foldl_cons, ih, completedPrayers_checkMissedOne]

theorem foldl_checkMissedOne_completedHas (t : PrayerTimeTable) (k c : String)
    (ps : List String) (st : TrackerState) (k' p' : String) :
    completedHas (ps.foldl (checkMissedOne t k c) st) k' p' = completedHas st k' p' := by
  unfold completedHas
  rw [foldl_checkMissedOne_completed]

theorem foldl_checkMissedOne_missedHas (t : PrayerTimeTable) (k c : String)
    (ps : List String) (st : TrackerState) (k' p' : String) :
    missedHas (ps.foldl (checkMissedOne t k c) st) k' p' =
      (missedHas st k' p' ||
        (decide (k' = k) && decide (p' ∈ ps) &&
          jsGtStr c (getEndTime t p') && !completedHas st k p')) := by
  induction ps generalizing st with
  | nil => simp
  | cons q ps ih =>
    rw [List.foldl_cons, ih, missedHas_checkMissedOne, completedHas_checkMissedOne]
    by_cases hk : k' = k
    · subst hk
      by_cases hq : p' = q
      · subst hq
        by_cases hps : p' ∈ ps <;>
          cases hg : jsGtStr c (getEndTime t p') <;>
          cases hc : completedHas st k' p' <;>
          cases hm : missedHas st k' p' <;>
          simp [hps, hg, hc, hm]
      · simp [hq, List.mem_cons]
    · simp [hk]

theorem foldl_checkMissedOne_noop (t : PrayerTimeTable) (k c : String)
    (ps : List String) (st : TrackerState)
    (h : ∀ p ∈ ps,
      (jsGtStr c (getEndTime t p) && !completedHas st k p) = true → missedHas st k p = true) :
    ps.foldl (checkMissedOne t k c) st = st := by
  induction ps with
  | nil => rfl
  | cons q ps ih =>
    have hstep : checkMissedOne t k c st q = st := by
      unfold checkMissedOne
      by_cases hg : jsGtStr c (getEndTime t q) = true
      · by_cases hc : completedHas st k q = true
        · simp [hg, hc]
        · have hm : missedHas st k q = true := by
            refine h q (by simp) ?_
            simp [hg, hc]
          rcases Option.isSome_iff_exists.mp (by simpa [missedHas] using hm) with ⟨e, he⟩
          simp [hg, hc, he]
      · simp only [Bool.not_eq_true] at hg
        simp [hg]
    rw [List.foldl_cons, hstep]
    exact ih (fun p hp => h p (by simp [hp]))

/-- C5: one run of `checkForMissedPrayers` leaves a missed entry for
`(today, p)` present exactly when it was already present or the prayer's end
has passed (`now > getEndTime(p)`, string comparison) without a completion
mark; and at a fixed `now` a second run is a no-op on the whole state, so
re-evaluating already-missed pairs changes neither record. -/
theorem checkForMissedPrayers_records_and_idempotent (t : PrayerTimeTable)
    (st : TrackerState) (todayKey currentTime : String) (isFriday : Bool) (p : String)
    (hp : p ∈ prayersList isFriday) :
    (missedHas (checkForMissedPrayers t st todayKey currentTime isFriday) todayKey p =
      (missedHas st todayKey p ||
        (jsGtStr currentTime (getEndTime t p) && !completedHas st todayKey p))) ∧
    checkForMissedPrayers t (checkForMissedPrayers t st todayKey currentTime isFriday)
        todayKey currentTime isFriday =
      checkForMissedPrayers t st todayKey currentTime isFriday := by
  constructor
  · rw [checkForMissedPrayers, foldl_checkMissedOne_missedHas]
    simp [hp]
  · rw [checkForMissedPrayers, checkForMissedPrayers]
    apply foldl_checkMissedOne_noop
    intro q hq hcond
    rw [foldl_checkMissedOne_completedHas] at hcond
    rw [foldl_checkMissedOne_missedHas]
    simp only [hq, decide_eq_true_eq, Bool.and_eq_true] at hcond ⊢
    simp [hcond.1, hcond.2, hq]

/-- C5 witness: at the default table with `now = "20:00"`, a fresh state, a
Thursday list: `Asr` (which ended at `18:00`) gets recorded as missed by one
run, and the run is idempotent. -/
theorem checkForMissedPrayers_witness :
    "Asr" ∈ prayersList false ∧
      (missedHas (checkForMissedPrayers defaultPrayerTimes initState "9-10-2026" "20:00" false)
          "9-10-2026" "Asr" =
        (missedHas initState "9-10-2026" "Asr" ||
          (jsGtStr "20:00" (getEndTime defaultPrayerTimes "Asr") &&
            !completedHas initState "9-10-2026" "Asr"))) ∧
      checkForMissedPrayers defaultPrayerTimes
          (checkForMissedPrayers defaultPrayerTimes initState "9-10-2026" "20:00" false)
          "9-10-2026" "20:00" false =
        checkForMissedPrayers defaultPrayerTimes initState "9-10-2026" "20:00" false := by
  refine ⟨by decide, ?_⟩
  exact checkForMissedPrayers_records_and_idempotent defaultPrayerTimes initState
    "9-10-2026" "20:00" false "Asr" (by decide)

/-- C4: unmarking a completed prayer after its window has closed
(`now > getEndTime(prayer)`) lands the pair in the missed state: the missed
record holds the entry `{date: todayKey, time: scheduled time}` and the
completion mark is gone. -/
theorem togglePrayer_unmark_after_end_is_missed (t : PrayerTimeTable) (st : TrackerState)
    (todayKey prayer currentTime : String) (isFriday : Bool)
    (hmem : prayer ∈ prayersList isFriday)
    (hcompleted : completedHas st todayKey prayer = true)
    (hlate : jsGtStr currentTime (getEndTime t prayer) = true) :
    aLookup (missedBucket (togglePrayerOff t st todayKey prayer currentTime) todayKey) prayer =
        some (missedEntryFor t todayKey prayer) ∧
      completedHas (togglePrayerOff t st todayKey prayer currentTime) todayKey prayer = false := by
  constructor
  · rw [missedLookup_togglePrayerOff]
    simp [hlate]
  · rw [completedHas_togglePrayerOff]
    simp

/-- C4 witness: mark Asr complete, then unmark at `"20:05"` (after Asr's
`"18:00"` end) on a non-Friday: the pair ends missed with the scheduled time
recorded, and the completion mark is gone. -/
theorem togglePrayer_unmark_witness :
    "Asr" ∈ prayersList false ∧
      completedHas (togglePrayerOn initState "9-10-2026" "Asr") "9-10-2026" "Asr" = true ∧
      jsGtStr "20:05" (getEndTime defaultPrayerTimes "Asr") = true ∧
      (aLookup
          (missedBucket
            (togglePrayerOff defaultPrayerTimes (togglePrayerOn initState "9-10-2026" "Asr")
              "9-10-2026" "Asr" "20:05") "9-10-2026") "Asr" =
          some (missedEntryFor defaultPrayerTimes "9-10-2026" "Asr") ∧
        completedHas
            (togglePrayerOff defaultPrayerTimes (togglePrayerOn initState "9-10-2026" "Asr")
              "9-10-2026" "Asr" "20:05") "9-10-2026" "Asr" = false) := by
  refine ⟨by decide, by decide, by decide, ?_⟩
  exact togglePrayer_unmark_after_end_is_missed defaultPrayerTimes
    (togglePrayerOn initState "9-10-2026" "Asr") "9-10-2026" "Asr" "20:05" false
    (by decide) (by decide) (by decide)

/-- C9: on a Friday the canonical list substitutes Jummah for Dhuhr at the
same position (index 1); the statistics always use denominator 5:
`completedCount` is between 0 and 5 and `remainingCount = 5 − completedCount`,
so the displayed pair always sums to 5 and Jummah never changes the total. -/
theorem updateStats_denominator_five (st : TrackerState) (todayKey : String) (isFriday : Bool) :
    (updateStats st todayKey isFriday).1 + (updateStats st todayKey isFriday).2 = 5 ∧
      (updateStats st todayKey isFriday).2 = 5 - (updateStats st todayKey isFriday).1 ∧
      0 ≤ (updateStats st todayKey isFriday).1 ∧
      (updateStats st todayKey isFriday).1 ≤ 5 ∧
      (prayersList isFriday).length = 5 ∧
      prayersList true = (prayersList false).set 1 "Jummah" := by
  have hlen : (prayersList isFriday).length = 5 := by cases isFriday <;> rfl
  have hle : ∀ bucket : List String,
      (prayersList isFriday).countP (fun p => sHas bucket p) ≤ 5 := by
    intro bucket
    calc (prayersList isFriday).countP (fun p => sHas bucket p)
        ≤ (prayersList isFriday).length := List.countP_le_length _
      _ = 5 := hlen
  have hn : ∃ n : Nat, n ≤ 5 ∧ updateStats st todayKey isFriday = ((n : Int), 5 - (n : Int)) := by
    unfold updateStats
    cases hb : aLookup st.completedPrayers todayKey with
    | none => exact ⟨0, by omega, by simp⟩
    | some bucket =>
      exact ⟨(prayersList isFriday).countP (fun p => sHas bucket p), hle bucket, by simp⟩
  rcases hn with ⟨n, hn5, heq⟩
  rw [heq]
  refine ⟨?_, ?_, ?_, ?_, hlen, by decide⟩
  · show (n : Int) + (5 - (n : Int)) = 5
    omega
  · show (5 - (n : Int)) = 5 - (n : Int)
    rfl
  · show (0 : Int) ≤ (n : Int)
    omega
  · show ((n : Int)) ≤ 5
    omega

theorem aLookup_filter_isOlder {α : Type} (l : List (String × α)) (n : Int) (k : String) :
    aLookup (l.filter (fun b => !isOlderThan30Days n b.1)) k =
      if isOlderThan30Days n k then none else aLookup l k := by
  have h := aLookup_filterKey l (fun x => !isOlderThan30Days n x) k
  cases ho : isOlderThan30Days n k <;> simp only [ho] at h ⊢ <;> simpa using h

theorem completedHas_cleanOldData (nowMinutes : Int) (st : TrackerState) (k p : String) :
    completedHas (cleanOldData nowMinutes st) k p =
      (!isOlderThan30Days nowMinutes k && completedHas st k p) := by
  unfold completedHas cleanOldData
  rw [aLookup_filter_isOlder]
  cases ho : isOlderThan30Days nowMinutes k <;> simp [ho]

theorem missedHas_cleanOldData (nowMinutes : Int) (st : TrackerState) (k p : String) :
    missedHas (cleanOldData nowMinutes st) k p =
      (!isOlderThan30Days nowMinutes k && missedHas st k p) := by
  unfold missedHas missedBucket cleanOldData
  rw [aLookup_filter_isOlder]
  cases ho : isOlderThan30Days nowMinutes k <;> simp [ho]

/-- C6: with `now = dayNow·1440 + tod` (`0 ≤ tod < 1440` minutes into the
day), the sweep removes a bucket whose DayKey parses to the date 31 days
before now and keeps one parsing to 29 days before now, in both the
completion record and the missed record. -/
theorem cleanOldData_thirty_day_retention (st : TrackerState)
    (nowMinutes dayNow tod : Int) (kOld kNew : String)
    (hnow : nowMinutes = dayNow * 1440 + tod) (h0 : 0 ≤ tod) (h1 : tod < 1440)
    (hOld : parseDayKey kOld = some (dayNow - 31))
    (hNew : parseDayKey kNew = some (dayNow - 29)) :
    aLookup (cleanOldData nowMinutes st).completedPrayers kOld = none ∧
      aLookup (cleanOldData nowMinutes st).missedPrayers kOld = none ∧
      aLookup (cleanOldData nowMinutes st).completedPrayers kNew =
        aLookup st.completedPrayers kNew ∧
      aLookup (cleanOldData nowMinutes st).missedPrayers kNew =
        aLookup st.missedPrayers kNew := by
  have hO : isOlderThan30Days nowMinutes kOld = true := by
    simp only [isOlderThan30Days, hOld, decide_eq_true_eq]
    omega
  have hN : isOlderThan30Days nowMinutes kNew = false := by
    simp only [isOlderThan30Days, hNew, decide_eq_false_iff_not]
    omega
  unfold cleanOldData
  simp only [aLookup_filter_isOlder, hO, hN]
  simp

/-- C6 witness: with now 600 minutes into day 19754 (2024-02-01), the bucket
`"1-1-2024"` (day 19723, 31 days old) is purged from both records and
`"3-1-2024"` (day 19725, 29 days old) is kept. -/
theorem cleanOldData_retention_witness :
    parseDayKey "1-1-2024" = some (19754 - 31) ∧
      parseDayKey "3-1-2024" = some (19754 - 29) ∧
      (aLookup (cleanOldData (19754 * 1440 + 600)
          ⟨[("1-1-2024", ["Fajr"]), ("3-1-2024", ["Dhuhr"])],
            [("1-1-2024", [("Asr", ⟨"1-1-2024", some "15:45"⟩)]),
              ("3-1-2024", [("Isha", ⟨"3-1-2024", some "19:30"⟩)])]⟩).completedPrayers
          "1-1-2024" = none ∧
        aLookup (cleanOldData (19754 * 1440 + 600)
          ⟨[("1-1-2024", ["Fajr"]), ("3-1-2024", ["Dhuhr"])],
            [("1-1-2024", [("Asr", ⟨"1-1-2024", some "15:45"⟩)]),
              ("3-1-2024", [("Isha", ⟨"3-1-2024", some "19:30"⟩)])]⟩).missedPrayers
          "1-1-2024" = none ∧
        aLookup (cleanOldData (19754 * 1440 + 600)
          ⟨[("1-1-2024", ["Fajr"]), ("3-1-2024", ["Dhuhr"])],
            [("1-1-2024", [("Asr", ⟨"1-1-2024", some "15:45"⟩)]),
              ("3-1-2024", [("Isha", ⟨"3-1-2024", some "19:30"⟩)])]⟩).completedPrayers
          "3-1-2024" =
          aLookup (⟨[("1-1-2024", ["Fajr"]), ("3-1-2024", ["Dhuhr"])],
            [("1-1-2024", [("Asr", ⟨"1-1-2024", some "15:45"⟩)]),
              ("3-1-2024", [("Isha", ⟨"3-1-2024", some "19:30"⟩)])]⟩ :
              TrackerState).completedPrayers "3-1-2024" ∧
        aLookup (cleanOldData (19754 * 1440 + 600)
          ⟨[("1-1-2024", ["Fajr"]), ("3-1-2024", ["Dhuhr"])],
            [("1-1-2024", [("Asr", ⟨"1-1-2024", some "15:45"⟩)]),
              ("3-1-2024", [("Isha", ⟨"3-1-2024", some "19:30"⟩)])]⟩).missedPrayers
          "3-1-2024" =
          aLookup (⟨[("1-1-2024", ["Fajr"]), ("3-1-2024", ["Dhuhr"])],
            [("1-1-2024", [("Asr", ⟨"1-1-2024", some "15:45"⟩)]),
              ("3-1-2024", [("Isha", ⟨"3-1-2024", some "19:30"⟩)])]⟩ :
              TrackerState).missedPrayers "3-1-2024") := by
  refine ⟨by decide, by decide, ?_⟩
  exact cleanOldData_thirty_day_retention _ (19754 * 1440 + 600) 19754 600 "1-1-2024" "3-1-2024"
    rfl (by omega) (by omega) (by decide) (by decide)

/-- C7: a bucket whose DayKey fails to parse (`NaN` components, invalid
date) is left in place by the sweep, and every other bucket of both records
is still processed by its own age test — the sweep never aborts. -/
theorem cleanOldData_skips_unparsable_buckets (st : TrackerState) (nowMinutes : Int)
    (kBad kGood : String) (d : Int)
    (hBad : parseDayKey kBad = none) (hGood : parseDayKey kGood = some d) :
    (aLookup (cleanOldData nowMinutes st).completedPrayers kBad =
        aLookup st.completedPrayers kBad ∧
      aLookup (cleanOldData nowMinutes st).missedPrayers kBad =
        aLookup st.missedPrayers kBad) ∧
      (aLookup (cleanOldData nowMinutes st).completedPrayers kGood =
          (if d * 1440 < nowMinutes - 30 * 1440 then none
           else aLookup st.completedPrayers kGood) ∧
        aLookup (cleanOldData nowMinutes st).missedPrayers kGood =
          (if d * 1440 < nowMinutes - 30 * 1440 then none
           else aLookup st.missedPrayers kGood)) := by
  have hB : isOlderThan30Days nowMinutes kBad = false := by
    simp [isOlderThan30Days, hBad]
  have hG : isOlderThan30Days nowMinutes kGood =
      decide (d * 1440 < nowMinutes - 30 * 1440) := by
    simp [isOlderThan30Days, hGood]
  unfold cleanOldData
  simp only [aLookup_filter_isOlder, hB, hG]
  by_cases hcut : d * 1440 < nowMinutes - 30 * 1440 <;> simp [hcut]

/-- C7 witness: the unparsable bucket `"garbage"` survives the sweep while
the valid bucket `"9-10-2026"` (day 20735) is still subjected to the age
test, at a `now` one day later (so it is kept, exercising the else branch). -/
theorem cleanOldData_unparsable_witness :
    parseDayKey "garbage" = none ∧
      parseDayKey "9-10-2026" = some 20735 ∧
      ((aLookup (cleanOldData (20736 * 1440)
            ⟨[("garbage", ["Fajr"]), ("9-10-2026", ["Asr"])], []⟩).completedPrayers "garbage" =
          aLookup (⟨[("garbage", ["Fajr"]), ("9-10-2026", ["Asr"])], []⟩ :
            TrackerState).completedPrayers "garbage" ∧
        aLookup (cleanOldData (20736 * 1440)
            ⟨[("garbage", ["Fajr"]), ("9-10-2026", ["Asr"])], []⟩).missedPrayers "garbage" =
          aLookup (⟨[("garbage", ["Fajr"]), ("9-10-2026", ["Asr"])], []⟩ :
            TrackerState).missedPrayers "garbage") ∧
      (aLookup (cleanOldData (20736 * 1440)
            ⟨[("garbage", ["Fajr"]), ("9-10-2026", ["Asr"])], []⟩).completedPrayers "9-10-2026" =
          (if 20735 * 1440 < 20736 * 1440 - 30 * 1440 then none
           else aLookup (⟨[("garbage", ["Fajr"]), ("9-10-2026", ["Asr"])], []⟩ :
             TrackerState).completedPrayers "9-10-2026") ∧
        aLookup (cleanOldData (20736 * 1440)
            ⟨[("garbage", ["Fajr"]), ("9-10-2026", ["Asr"])], []⟩).missedPrayers "9-10-2026" =
          (if 20735 * 1440 < 20736 * 1440 - 30 * 1440 then none
           else aLookup (⟨[("garbage", ["Fajr"]), ("9-10-2026", ["Asr"])], []⟩ :
             TrackerState).missedPrayers "9-10-2026"))) := by
  refine ⟨by decide, by decide, ?_⟩
  exact cleanOldData_skips_unparsable_buckets _ (20736 * 1440) "garbage" "9-10-2026" 20735
    (by decide) (by decide)

/-! ### Reachable tracker states (for the completed/missed disjointness invariant) -/

/-- The operations that mutate the two records in the source: the two
branches of `togglePrayer`, a run of `checkForMissedPrayers`, and the daily
`cleanOldData` sweep. -/
inductive TrackerOp where
  | userMark (todayKey prayer : String)
  | userUnmark (t : PrayerTimeTable) (todayKey prayer currentTime : String)
  | periodicCheck (t : PrayerTimeTable) (todayKey currentTime : String) (isFriday : Bool)
  | retentionSweep (nowMinutes : Int)

def applyOp (st : TrackerState) : TrackerOp → TrackerState
  | TrackerOp.userMark k p => togglePrayerOn st k p
  | TrackerOp.userUnmark t k p c => togglePrayerOff t st k p c
  | TrackerOp.periodicCheck t k c f => checkForMissedPrayers t st k c f
  | TrackerOp.retentionSweep n => cleanOldData n st

/-- A tracker run from the fresh (empty) state. -/
def runTracker (ops : List TrackerOp) : TrackerState := ops.foldl applyOp initState

theorem applyOp_preserves_disjoint (st : TrackerState)
    (h : ∀ k p, (completedHas st k p && missedHas st k p) = false) (op : TrackerOp) :
    ∀ k p, (completedHas (applyOp st op) k p && missedHas (applyOp st op) k p) = false := by
  intro k p
  have hkp := h k p
  cases op with
  | userMark k0 p0 =>
    simp only [applyOp, completedHas_togglePrayerOn, missedHas_togglePrayerOn]
    cases hc : completedHas st k p <;> cases hm : missedHas st k p <;>
      by_cases h1 : k = k0 <;> by_cases h2 : p = p0 <;> simp_all
  | userUnmark t k0 p0 c =>
    simp only [applyOp, completedHas_togglePrayerOff, missedHas_togglePrayerOff]
    cases hg : jsGtStr c (getEndTime t p0) <;>
      cases hc : completedHas st k p <;> cases hm : missedHas st k p <;>
      by_cases h1 : k = k0 <;> by_cases h2 : p = p0 <;> simp_all
  | periodicCheck t k0 c f =>
    simp only [applyOp, checkForMissedPrayers, foldl_checkMissedOne_completedHas,
      foldl_checkMissedOne_missedHas]
    by_cases h1 : k = k0
    · subst h1
      cases hc : completedHas st k p <;> cases hm : missedHas st k p <;>
        by_cases h2 : p ∈ prayersList f <;>
        cases hg : jsGtStr c (getEndTime t p) <;> simp_all
    · cases hc : completedHas st k p <;> cases hm : missedHas st k p <;> simp_all
  | retentionSweep n =>
    simp only [applyOp, completedHas_cleanOldData, missedHas_cleanOldData]
    cases ho : isOlderThan30Days n k <;>
      cases hc : completedHas st k p <;> cases hm : missedHas st k p <;> simp_all

/-- C10: in every state reachable from the fresh tracker by user marks,
user unmarks, periodic miss re-evaluations and retention sweeps, no
(DayKey, prayer) pair is ever present in the completion record and the
missed record at the same time. -/
theorem runTracker_completed_missed_disjoint (ops : List TrackerOp) (k p : String) :
    (completedHas (runTracker ops) k p && missedHas (runTracker ops) k p) = false := by
  suffices hgen : ∀ st : TrackerState,
      (∀ k p, (completedHas st k p && missedHas st k p) = false) →
      ∀ k p, (completedHas (ops.foldl applyOp st) k p &&
        missedHas (ops.foldl applyOp st) k p) = false by
    exact hgen initState (fun _ _ => rfl) k p
  induction ops with
  | nil => exact fun st h => h
  | cons op ops ih =>
    intro st h
    exact ih (applyOp st op) (applyOp_preserves_disjoint st h op)

/-! ### Behaviour of the time operations on malformed input (claim C8) -/

/-- C8 counterexample: on operands that are not well-formed "HH:MM", neither
operation fails with any error: `isTimeInRange` silently returns the plain
lexicographic comparison result, and `addMinutes` silently returns a
formatted string — `"NaN:NaN"` for an unparsable time, and even a plausible
"result" for a non-zero-padded one. -/
theorem timeMath_silent_on_malformed :
    isTimeInRange "banana" "apple" "cherry" = true ∧
      isTimeInRange "99:99" "12:00" "13:00" = false ∧
      addMinutes "banana" 7 = "NaN:NaN" ∧
      addMinutes "7:5" 10 = "07:15" := by
  decide

/-- `addMinutes` as invoked with a possibly-missing time operand: when the
operand is `undefined` (`none`) — e.g. a prayer key absent from the table —
the very first step `time.split(':')` throws a `TypeError` (modelled as
`Except.error`); a present string always returns normally with the result of
`addMinutes`. -/
def addMinutesOrThrow (time : Option String) (minutes : Int) : Except String String :=
  match time with
  | none => Except.error "TypeError"
  | some s => Except.ok (addMinutes s minutes)

/-- JS `a <= b` where either operand may be `undefined`: a relational
comparison against `undefined` coerces it to `NaN` and yields `false`
(no error is thrown). -/
def jsLeUndef : Option String → Option String → Bool
  | some a, some b => jsLeStr a b
  | _, _ => false

/-- `isTimeInRange` as invoked with possibly-missing operands. -/
def isTimeInRangeUndef (current start0 end0 : Option String) : Bool :=
  jsLeUndef start0 current && jsLeUndef current end0

/-- C8 (amended): for a MISSING time operand (`undefined`) the minute
arithmetic does fail as the claim states — `time.split(':')` throws a
TypeError — and only there; a present but malformed string never raises:
`addMinutes` still returns a string, `"NaN:NaN"` whenever a component fails
numeric parsing, and range containment never raises either — against
`undefined` it silently evaluates to `false`. -/
theorem timeOps_missing_throws_malformed_silent :
    (∀ d : Int, addMinutesOrThrow none d = Except.error "TypeError") ∧
      (∀ (s : String) (d : Int), addMinutesOrThrow (some s) d = Except.ok (addMinutes s d)) ∧
      (∀ (s : String) (d : Int), addMinutesTotal s d = none →
        addMinutesOrThrow (some s) d = Except.ok "NaN:NaN") ∧
      (∀ c s e : Option String, c = none ∨ s = none ∨ e = none →
        isTimeInRangeUndef c s e = false) := by
  refine ⟨fun d => rfl, fun s d => rfl, ?_, ?_⟩
  · intro s d h
    have hNaN : addMinutes s d = "NaN:NaN" := by
      unfold addMinutes
      rw [h]
      rfl
    simp [addMinutesOrThrow, hNaN]
  · intro c s e h
    cases c <;> cases s <;> cases e <;> simp [isTimeInRangeUndef, jsLeUndef] at h ⊢

/-- C8 witness: `addMinutes(undefined, 90)` throws, while
`addMinutes("banana", 5)` hits the `NaN` path and silently returns the
string `"NaN:NaN"`, and a range test against `undefined` silently yields
`false`. -/
theorem timeOps_missing_throws_witness :
    addMinutesOrThrow none 90 = Except.error "TypeError" ∧
      addMinutesTotal "banana" 5 = none ∧
      addMinutesOrThrow (some "banana") 5 = Except.ok "NaN:NaN" ∧
      isTimeInRangeUndef (some "12:30") (some "12:00") none = false :=
  ⟨timeOps_missing_throws_malformed_silent.1 90, by decide,
    timeOps_missing_throws_malformed_silent.2.2.1 "banana" 5 (by decide),
    timeOps_missing_throws_malformed_silent.2.2.2 (some "12:30") (some "12:00") none
      (Or.inr (Or.inr rfl))⟩

/-! ### Well-formed "HH:MM" strings and their order (for claim C3)

`timeString h m` is the zero-padded rendering of a time; on such strings the
JS lexicographic comparison coincides with comparison of minutes-of-day. -/

def twoDigits (n : Nat) : List Char := [Nat.digitChar (n / 10), Nat.digitChar (n % 10)]

/-- The zero-padded "HH:MM" rendering of `h` hours and `m` minutes. -/
def timeString (h m : Nat) : String := String.mk (twoDigits h ++ ':' :: twoDigits m)

theorem digitChar_lt_iff : ∀ a, a < 10 → ∀ b, b < 10 →
    (Nat.digitChar a < Nat.digitChar b ↔ a < b) := by
  decide

theorem digitChar_ne_colon : ∀ a, a < 10 → Nat.digitChar a ≠ ':' := by
  decide

theorem colon_not_mem_twoDigits (x : Nat) (hx : x < 100) : ':' ∉ twoDigits x := by
  intro hmem
  rcases (by simpa [twoDigits] using hmem : ':' = Nat.digitChar (x / 10) ∨
      ':' = Nat.digitChar (x % 10)) with h | h
  · exact digitChar_ne_colon (x / 10) (by omega) h.symm
  · exact digitChar_ne_colon (x % 10) (by omega) h.symm

theorem charListLtb_twoDigit_step (a b : Nat) (ha : a < 100) (hb : b < 100) (next : Bool) :
    (if Nat.digitChar (a / 10) < Nat.digitChar (b / 10) then true
     else if Nat.digitChar (b / 10) < Nat.digitChar (a / 10) then false
     else if Nat.digitChar (a % 10) < Nat.digitChar (b % 10) then true
     else if Nat.digitChar (b % 10) < Nat.digitChar (a % 10) then false
     else next) =
      (if a < b then true else if b < a then false else next) := by
  have h1 := digitChar_lt_iff (a / 10) (by omega) (b / 10) (by omega)
  have h2 := digitChar_lt_iff (b / 10) (by omega) (a / 10) (by omega)
  have h3 := digitChar_lt_iff (a % 10) (by omega) (b % 10) (by omega)
  have h4 := digitChar_lt_iff (b % 10) (by omega) (a % 10) (by omega)
  by_cases c1 : a / 10 < b / 10
  · have hab : a < b := by omega
    simp [h1, c1, hab]
  · by_cases c2 : b / 10 < a / 10
    · have hba : b < a := by omega
      have hab : ¬ a < b := by omega
      simp [h1, h2, c1, c2, hab, hba]
    · by_cases c3 : a % 10 < b % 10
      · have hab : a < b := by omega
        simp [h1, h2, h3, c1, c2, c3, hab]
      · by_cases c4 : b % 10 < a % 10
        · have hba : b < a := by omega
          have hab : ¬ a < b := by omega
          simp [h1, h2, h3, h4, c1, c2, c3, c4, hab, hba]
        · have hab : ¬ a < b := by omega
          have hba : ¬ b < a := by omega
          simp [h1, h2, h3, h4, c1, c2, c3, c4, hab, hba]

theorem charListLtb_timeString (h m h' m' : Nat) (hh : h < 24) (hm : m < 60)
    (hh' : h' < 24) (hm' : m' < 60) :
    charListLtb (timeString h m).data (timeString h' m').data =
      decide (h * 60 + m < h' * 60 + m') := by
  show charListLtb
      [Nat.digitChar (h / 10), Nat.digitChar (h % 10), ':',
        Nat.digitChar (m / 10), Nat.digitChar (m % 10)]
      [Nat.digitChar (h' / 10), Nat.digitChar (h' % 10), ':',
        Nat.digitChar (m' / 10), Nat.digitChar (m' % 10)] =
    decide (h * 60 + m < h' * 60 + m')
  have hcolon : ¬ (':' < ':') := by decide
  simp only [charListLtb, hcolon, if_false]
  rw [charListLtb_twoDigit_step m m' (by omega) (by omega) false]
  rw [charListLtb_twoDigit_step h h' (by omega) (by omega)
        (if m < m' then true else if m' < m then false else false)]
  by_cases c1 : h < h'
  · have : h * 60 + m < h' * 60 + m' := by omega
    simp [c1, this]
  · by_cases c2 : h' < h
    · have : ¬ h * 60 + m < h' * 60 + m' := by omega
      simp [c1, c2, this]
    · by_cases c3 : m < m'
      · have : h * 60 + m < h' * 60 + m' := by omega
        simp [c1, c2, c3, this]
      · by_cases c4 : m' < m
        · have : ¬ h * 60 + m < h' * 60 + m' := by omega
          simp [c1, c2, c3, c4, this]
        · have : ¬ h * 60 + m < h' * 60 + m' := by omega
          simp [c1, c2, c3, c4, this]

theorem splitOnCharAux_no_sep (sep : Char) (l : List Char) (hno : sep ∉ l) :
    ∀ acc, splitOnCharAux sep l acc = [acc.reverse ++ l] := by
  induction l with
  | nil => intro acc; simp [splitOnCharAux]
  | cons c cs ih =>
    intro acc
    have hc : ¬ c = sep := fun he => hno (by simp [he])
    rw [splitOnCharAux, if_neg hc, ih (fun hmem => hno (by simp [hmem]))]
    simp

theorem splitOnCharAux_sep_split (sep : Char) (l1 l2 : List Char) (hno : sep ∉ l1) :
    ∀ acc, splitOnCharAux sep (l1 ++ sep :: l2) acc =
      (acc.reverse ++ l1) :: splitOnCharAux sep l2 [] := by
  induction l1 with
  | nil => intro acc; simp [splitOnCharAux]
  | cons c cs ih =>
    intro acc
    have hc : ¬ c = sep := fun he => hno (by simp [he])
    rw [List.cons_append, splitOnCharAux, if_neg hc,
      ih (fun hmem => hno (by simp [hmem]))]
    simp

theorem jsStringToNumber_twoDigits : ∀ n, n < 100 →
    jsStringToNumber (String.mk (twoDigits n)) = some ((n : Nat) : Int) := by
  decide

theorem padStart2_format_twoDigits : ∀ n, n < 100 →
    padStart2 (jsNumToString (some ((n : Nat) : Int))) = String.mk (twoDigits n) := by
  decide

/-- On a well-formed time, with a total that stays in `[0, 1440)`,
`addMinutes` produces the zero-padded rendering of the new minutes-of-day. -/
theorem addMinutes_timeString (h m T : Nat) (d : Int) (hh : h < 24) (hm : m < 60)
    (hT : ((h * 60 + m : Nat) : Int) + d = (T : Int)) (hT2 : T < 1440) :
    addMinutes (timeString h m) d = timeString (T / 60) (T % 60) := by
  have hsplit : jsSplit (timeString h m) ':' =
      [String.mk (twoDigits h), String.mk (twoDigits m)] := by
    unfold jsSplit timeString
    rw [show (String.mk (twoDigits h ++ ':' :: twoDigits m)).data =
        twoDigits h ++ ':' :: twoDigits m from rfl]
    rw [splitOnCharAux_sep_split ':' _ _ (colon_not_mem_twoDigits h (by omega)) []]
    rw [splitOnCharAux_no_sep ':' _ (colon_not_mem_twoDigits m (by omega)) []]
    simp
  have htot : addMinutesTotal (timeString h m) d = some ((T : Nat) : Int) := by
    unfold addMinutesTotal
    rw [hsplit]
    simp [jsStringToNumber_twoDigits h (by omega),
      jsStringToNumber_twoDigits m (by omega), optBin]
    omega
  have hhh : T / 60 < 24 := by omega
  have e1 : jsFloorDiv ((T : Nat) : Int) 60 = ((T / 60 : Nat) : Int) := by
    unfold jsFloorDiv
    exact (Int.ofNat_fdiv T 60).symm
  have e2 : jsRem ((T / 60 : Nat) : Int) 24 = (((T / 60) % 24 : Nat) : Int) := by
    unfold jsRem
    exact (Int.ofNat_tmod (T / 60) 24).symm
  have e3 : (T / 60) % 24 = T / 60 := Nat.mod_eq_of_lt hhh
  have e4 : jsRem ((T : Nat) : Int) 60 = ((T % 60 : Nat) : Int) := by
    unfold jsRem
    exact (Int.ofNat_tmod T 60).symm
  unfold addMinutes
  rw [htot]
  simp only [Option.map_some']
  rw [e1, e2, e3, e4]
  rw [padStart2_format_twoDigits (T / 60) (by omega),
    padStart2_format_twoDigits (T % 60) (by omega)]
  rfl

/-- Strict parse of a well-formed zero-padded "HH:MM" string into
minutes-of-day; used only to state interval claims, not part of the source. -/
def timeToMinutes? (s : String) : Option Nat :=
  match s.data with
  | [h1, h2, ':', m1, m2] =>
    match digitVal? h1, digitVal? h2, digitVal? m1, digitVal? m2 with
    | some a, some b, some c, some d =>
      let h := a * 10 + b
      let m := c * 10 + d
      if h < 24 ∧ m < 60 then some (h * 60 + m) else none
    | _, _, _, _ => none
  | _ => none

/-- Modelled from the claim's words, for comparison with the source's
`isInForbiddenTime`: membership of `now` in
[Fajr+90, Sunrise) ∪ [Dhuhr−10, Dhuhr) ∪ [Maghrib−15, Maghrib] over
minutes-of-day, the first two intervals half-open as the claim states. -/
def claimForbiddenWindows (t : PrayerTimeTable) (now : String) : Bool :=
  match timeToMinutes? t.Fajr, timeToMinutes? t.Sunrise, timeToMinutes? t.Dhuhr,
      timeToMinutes? t.Maghrib, timeToMinutes? now with
  | some f, some s, some d, some g, some n =>
    decide ((f + 90 ≤ n ∧ n < s) ∨ (d - 10 ≤ n ∧ n < d) ∨ (g - 15 ≤ n ∧ n ≤ g))
  | _, _, _, _, _ => false

/-- C3 counterexample: at `now = "12:15"` — exactly Dhuhr — on the fallback
table, the source reports a forbidden window (`isTimeInRange` is inclusive
at both endpoints), while the claimed half-open interval [Dhuhr−10, Dhuhr)
excludes that instant. -/
theorem forbidden_window_dhuhr_endpoint_included :
    isInForbiddenTime defaultPrayerTimes "12:15" = true ∧
      claimForbiddenWindows defaultPrayerTimes "12:15" = false := by
  decide

/-- C3 (amended): for a table of well-formed zero-padded times whose offset
windows do not cross midnight, `isInForbiddenTime(now)` is true exactly when
`now` lies in one of the three CLOSED intervals
[Fajr+90, Sunrise], [Dhuhr−10, Dhuhr], [Maghrib−15, Maghrib]
(both endpoints included in all three), with the offsets 90, 10 and 15
minutes fixed. -/
theorem isInForbiddenTime_closed_intervals (t : PrayerTimeTable)
    (fh fm sh sm dh dm gh gm nh nm : Nat)
    (hFajr : t.Fajr = timeString fh fm) (hfh : fh < 24) (hfm : fm < 60)
    (hSun : t.Sunrise = timeString sh sm) (hsh : sh < 24) (hsm : sm < 60)
    (hDhu : t.Dhuhr = timeString dh dm) (hdh : dh < 24) (hdm : dm < 60)
    (hMag : t.Maghrib = timeString gh gm) (hgh : gh < 24) (hgm : gm < 60)
    (hnh : nh < 24) (hnm : nm < 60)
    (hNoWrapF : fh * 60 + fm + 90 < 1440)
    (hNoWrapD : 10 ≤ dh * 60 + dm)
    (hNoWrapG : 15 ≤ gh * 60 + gm) :
    isInForbiddenTime t (timeString nh nm) = true ↔
      ((fh * 60 + fm + 90 ≤ nh * 60 + nm ∧ nh * 60 + nm ≤ sh * 60 + sm) ∨
        (dh * 60 + dm - 10 ≤ nh * 60 + nm ∧ nh * 60 + nm ≤ dh * 60 + dm) ∨
        (gh * 60 + gm - 15 ≤ nh * 60 + nm ∧ nh * 60 + nm ≤ gh * 60 + gm)) := by
  have hF90 : addMinutes t.Fajr 90 =
      timeString ((fh * 60 + fm + 90) / 60) ((fh * 60 + fm + 90) % 60) := by
    rw [hFajr]
    exact addMinutes_timeString fh fm (fh * 60 + fm + 90) 90 hfh hfm (by omega) (by omega)
  have hD10 : subtractMinutes t.Dhuhr 10 =
      timeString ((dh * 60 + dm - 10) / 60) ((dh * 60 + dm - 10) % 60) := by
    rw [hDhu]
    unfold subtractMinutes
    exact addMinutes_timeString dh dm (dh * 60 + dm - 10) (-10) hdh hdm (by omega) (by omega)
  have hG15 : subtractMinutes t.Maghrib 15 =
      timeString ((gh * 60 + gm - 15) / 60) ((gh * 60 + gm - 15) % 60) := by
    rw [hMag]
    unfold subtractMinutes
    exact addMinutes_timeString gh gm (gh * 60 + gm - 15) (-15) hgh hgm (by omega) (by omega)
  simp only [isInForbiddenTime, isTimeInRange, jsLeStr]
  rw [hF90, hD10, hG15, hSun, hDhu, hMag]
  rw [charListLtb_timeString nh nm ((fh * 60 + fm + 90) / 60) ((fh * 60 + fm + 90) % 60)
      hnh hnm (by omega) (by omega)]
  rw [charListLtb_timeString sh sm nh nm hsh hsm hnh hnm]
  rw [charListLtb_timeString nh nm ((dh * 60 + dm - 10) / 60) ((dh * 60 + dm - 10) % 60)
      hnh hnm (by omega) (by omega)]
  rw [charListLtb_timeString dh dm nh nm hdh hdm hnh hnm]
  rw [charListLtb_timeString nh nm ((gh * 60 + gm - 15) / 60) ((gh * 60 + gm - 15) % 60)
      hnh hnm (by omega) (by omega)]
  rw [charListLtb_timeString gh gm nh nm hgh hgm hnh hnm]
  simp only [Bool.or_eq_true, Bool.and_eq_true, Bool.not_eq_true',
    decide_eq_false_iff_not, decide_eq_true_eq, not_lt]
  omega

/-- C3 amended-claim witness: the fallback table instantiates the closed
interval characterisation at `now = "12:10"` (inside the Dhuhr window). -/
theorem isInForbiddenTime_closed_intervals_witness :
    isInForbiddenTime defaultPrayerTimes (timeString 12 10) = true ↔
      ((5 * 60 + 0 + 90 ≤ 12 * 60 + 10 ∧ 12 * 60 + 10 ≤ 6 * 60 + 15) ∨
        (12 * 60 + 15 - 10 ≤ 12 * 60 + 10 ∧ 12 * 60 + 10 ≤ 12 * 60 + 15) ∨
        (18 * 60 + 0 - 15 ≤ 12 * 60 + 10 ∧ 12 * 60 + 10 ≤ 18 * 60 + 0)) :=
  isInForbiddenTime_closed_intervals defaultPrayerTimes 5 0 6 15 12 15 18 0 12 10
    (by decide) (by omega) (by omega) (by decide) (by omega) (by omega)
    (by decide) (by omega) (by omega) (by decide) (by omega) (by omega)
    (by omega) (by omega) (by omega) (by omega) (by omega)

end SalatTracker
